import Mathlib

/-!
# SillyTavern-Ensemble: verification of the dispatch/routing/backoff core

Shallow embedding of the rate limiter (`rate-limiter.js`), the backend
router's fallback-chain logic (`src/router.js`), and the batch
orchestrator (`src/orchestrator.js`).  External collaborators (the
SillyTavern context, prompt building, the HTTP transport, settings
resolution) are modelled as explicit oracle parameters; everything the
claims quantify over — state updates, control flow, error
classification, aggregation arithmetic and formatting — is translated
from the source.

Conventions used throughout:
* JavaScript `Date.now()` timestamps are `Nat` milliseconds, passed
  explicitly as a `now` argument to each call that reads the clock.
* A thrown JavaScript exception is an `Except.error`; a normal return
  is `Except.ok`.
* A JS `Map` is an association list in insertion order (`Map.set` on a
  fresh key appends; on an existing key it updates in place).
-/

/-- JS `String.prototype.toLowerCase()` (ASCII range, the one the
compared names use), as a kernel-reducible character map. -/
def jsToLower (s : String) : String :=
  String.mk (s.data.map Char.toLower)

/-- JS `String.prototype.trim()`: strip leading and trailing
whitespace, as a kernel-reducible list computation. -/
def jsTrim (s : String) : String :=
  String.mk (((s.data.dropWhile Char.isWhitespace).reverse.dropWhile
    Char.isWhitespace).reverse)

/-- JS `String.prototype.startsWith(pre)` as a kernel-reducible list
computation. -/
def jsStartsWith (s pre : String) : Bool :=
  pre.data.isPrefixOf s.data

/-- A JavaScript `Error` object, restricted to the fields this code
reads: `name` (`"AbortError"` for aborts), `message`, and the ad-hoc
`isRateLimited` / `profileName` properties the router attaches. -/
structure JsError where
  name : String
  message : String
  isRateLimited : Bool
  profileName : Option String
deriving DecidableEq, Repr

/-- `new Error(msg)`: plain error, no rate-limit marker. -/
def mkError (msg : String) : JsError :=
  { name := "Error", message := msg, isRateLimited := false, profileName := none }

/-! ## Rate limiter (`rate-limiter.js`) -/

/-- One per-profile record of the rate limiter's `Map`. -/
structure RLRecord where
  isLimited : Bool
  nextAttemptTime : Nat
  consecutiveErrors : Nat
deriving DecidableEq, Repr

/-- The fresh record `getState` installs for an unseen profile. -/
def RLRecord.fresh : RLRecord :=
  { isLimited := false, nextAttemptTime := 0, consecutiveErrors := 0 }

/-- The module-level `rateLimitState` map, in insertion order. -/
abbrev RLState := List (String × RLRecord)

/-- `rateLimitState.get(n)` (lookup without insertion). -/
def lookupRec : RLState → String → Option RLRecord
  | [], _ => none
  | (k, v) :: rest, n => if k = n then some v else lookupRec rest n

/-- `rateLimitState.set(n, r)`: update the existing entry in place, or
append a new one (JS `Map` insertion-order semantics). -/
def setRec : RLState → String → RLRecord → RLState
  | [], n, r => [(n, r)]
  | (k, v) :: rest, n, r =>
      if k = n then (n, r) :: rest else (k, v) :: setRec rest n r

/-- `BASE_DELAY_MS` -/
def BASE_DELAY_MS : Nat := 5000

/-- `MAX_DELAY_MS` -/
def MAX_DELAY_MS : Nat := 300000

/-- `getState(profileName)`: returns the record (creating the default
one if absent) together with the possibly-extended map. -/
def getState (s : RLState) (n : String) : RLRecord × RLState :=
  match lookupRec s n with
  | some r => (r, s)
  | none => (RLRecord.fresh, s ++ [(n, RLRecord.fresh)])

/-- `calculateBackoff(errorCount)` = `min(BASE * 2^errorCount, MAX)`. -/
def calculateBackoff (errorCount : Nat) : Nat :=
  min (BASE_DELAY_MS * 2 ^ errorCount) MAX_DELAY_MS

/-- Result shape of `checkRateLimit`. -/
structure CheckResult where
  isLimited : Bool
  retryIn : Option Nat
  reason : Option String
deriving DecidableEq, Repr

/-- `Math.ceil(ms / 1000)` on a natural number of milliseconds. -/
def ceilSeconds (ms : Nat) : Nat := (ms + 999) / 1000

/-- `checkRateLimit(profileName)` at clock value `now`; returns the
result object and the updated map (the function mutates the map both
through `getState`'s lazy insertion and through lazy expiry). -/
def checkRateLimit (s : RLState) (n : String) (now : Nat) : CheckResult × RLState :=
  let g := getState s n
  let st := g.1
  if st.isLimited = false then
    ({ isLimited := false, retryIn := none, reason := none }, g.2)
  else if st.nextAttemptTime ≤ now then
    ({ isLimited := false, retryIn := none, reason := none },
      setRec g.2 n { st with isLimited := false })
  else
    let retryIn := st.nextAttemptTime - now
    ({ isLimited := true, retryIn := some retryIn,
       reason := some ("Rate limited. Retry in " ++ toString (ceilSeconds retryIn) ++
         " seconds (" ++ toString st.consecutiveErrors ++ " consecutive errors)") },
      g.2)

/-- `recordSuccess(profileName)`. -/
def recordSuccess (s : RLState) (n : String) : RLState :=
  let g := getState s n
  setRec g.2 n { g.1 with consecutiveErrors := 0, isLimited := false, nextAttemptTime := 0 }

/-- Return shape of `recordRateLimit`. -/
structure LimitInfo where
  retryIn : Nat
  nextAttemptTime : Nat
deriving DecidableEq, Repr

/-- `recordRateLimit(profileName, retryAfterHeader)` at clock `now`.
The header argument models the already-parsed numeric value: `some v`
for a numeric `Retry-After`, `none` for absent/`null`/NaN (a NaN parse
takes the same backoff branch as `null`, so it needs no own case). -/
def recordRateLimit (s : RLState) (n : String) (now : Nat)
    (retryAfterHeader : Option Int) : LimitInfo × RLState :=
  let g := getState s n
  let newCount := g.1.consecutiveErrors + 1
  let retry0 : Nat :=
    match retryAfterHeader with
    | some v => if 0 < v then v.toNat * 1000 else calculateBackoff newCount
    | none => calculateBackoff newCount
  let retryIn := min retry0 MAX_DELAY_MS
  let nextAt := now + retryIn
  ({ retryIn := retryIn, nextAttemptTime := nextAt },
    setRec g.2 n { isLimited := true, nextAttemptTime := nextAt, consecutiveErrors := newCount })

example : (recordRateLimit [] "P1" 0 none).1.retryIn = 10000 := by decide
example : (recordRateLimit [] "P1" 0 (some 10)).1.retryIn = 10000 := by decide
example : (checkRateLimit (recordRateLimit [] "P1" 0 (some 10)).2 "P1" 0).1.isLimited = true := by
  decide

/-! ## Router (`src/router.js`) -/

/-- A connection profile, restricted to the one field the fallback
logic reads (`name`; URL/proxy/model only shape the outbound payload,
which is opaque to the control flow verified here). -/
structure Profile where
  name : String
deriving DecidableEq, Repr

/-- `TIERS` -/
def TIERS : List String := ["orchestrator", "major", "standard", "minor", "utility"]

/-- What one `fetch` of `/api/backends/chat-completions/generate`
does, as seen by `singleProfileGenerate`, keyed by profile name:
* `ok text` — a 2xx response whose JSON yields the generated text;
* `httpError status statusText retryAfter` — a non-2xx response
  (`retryAfter` is the parsed `Retry-After` header, already reduced to
  `some seconds` / `none` as in `recordRateLimit`'s header argument);
* `thrown e` — `fetch` itself threw (network failure, or an
  `AbortError` when the batch signal fired). -/
inductive FetchOutcome where
  | ok (text : String)
  | httpError (status : Nat) (statusText : String) (retryAfter : Option Int)
  | thrown (e : JsError)
deriving DecidableEq, Repr

/-- Transport oracle: the fetch outcome each profile name produces. -/
abbrev FetchEnv := String → FetchOutcome

/-- `response.statusText || 'Unknown error'` -/
def statusTextOrUnknown (t : String) : String :=
  if t = "" then "Unknown error" else t

/-- The actionable suggestion `singleProfileGenerate` attaches to a
non-429 HTTP failure, keyed by status class. -/
def statusSuggestion (status : Nat) : String :=
  if status = 401 ∨ status = 403 then
    "Authentication failed - check your API key in the connection profile."
  else if status = 404 then
    "Endpoint not found - verify the API URL in your connection profile."
  else if 500 ≤ status then
    "Server error - the API provider may be experiencing issues."
  else ""

/-- `profile?.name || 'default'` -/
def profileNameOf (profile : Option Profile) : String :=
  match profile with
  | some p => p.name
  | none => "default"

/-- `singleProfileGenerate(messages, profile, options)`:
one API call against one profile.  The message array, model and
sampling parameters only shape the opaque payload and are folded into
the transport oracle; the rate-limit pre-check, the HTTP status
classification and the limiter bookkeeping are translated verbatim.
Returns the JS result (`ok` = returned value, `error` = thrown
exception) together with the updated limiter state. -/
def singleProfileGenerate (env : FetchEnv) (s : RLState) (now : Nat)
    (profile : Option Profile) (npcId tier : String) : Except JsError String × RLState :=
  let profileName := profileNameOf profile
  let c := checkRateLimit s profileName now
  if c.1.isLimited then
    (Except.error
      { name := "Error",
        message := "[Ensemble] Rate limited: " ++ (c.1.reason.getD "null") ++
          ". Retry in " ++ toString (ceilSeconds (c.1.retryIn.getD 0)) ++ "s",
        isRateLimited := true, profileName := some profileName },
      c.2)
  else
    match env profileName with
    | FetchOutcome.thrown e => (Except.error e, c.2)
    | FetchOutcome.ok text => (Except.ok text, recordSuccess c.2 profileName)
    | FetchOutcome.httpError status statusText retryAfter =>
        if status = 429 then
          let r := recordRateLimit c.2 profileName now retryAfter
          (Except.error
            { name := "Error",
              message := "[Ensemble] Rate limit (429) from " ++ profileName ++ " for " ++
                npcId ++ " (tier: " ++ tier ++ "). Retry in " ++
                toString (ceilSeconds r.1.retryIn) ++ "s",
              isRateLimited := true, profileName := some profileName },
            r.2)
        else
          (Except.error (mkError
            ("[Ensemble] Failed to generate response for " ++ npcId ++ " (tier: " ++ tier ++
              "): " ++ profileName ++ " returned " ++ toString status ++ " " ++
              statusTextOrUnknown statusText ++ ". " ++ statusSuggestion status)),
            c.2)

/-- The wrapping `directGenerate` applies to an error that escaped
`singleProfileGenerate` without the module prefix (a raw network
error). -/
def wrapNetworkError (npcId tier profileName : String) (e : JsError) : JsError :=
  if jsStartsWith e.message "[Ensemble]" then e
  else
    mkError ("[Ensemble] Network error generating response for " ++ npcId ++
      " (tier: " ++ tier ++ ") using profile " ++ profileName ++ ": " ++ e.message)

/-- `lastError?.message || 'Unknown error'` -/
def lastErrorMessage (lastError : Option JsError) : String :=
  match lastError with
  | some e => if e.message = "" then "Unknown error" else e.message
  | none => "Unknown error"

/-- The chain-exhaustion error message `directGenerate` throws when
every profile in the chain was tried. -/
def exhaustMsg (npcId tier : String) (tried : List String) (lastMsg : String) : String :=
  "[Ensemble] All " ++ toString tried.length ++ " profiles exhausted for " ++ npcId ++
    " (tier: " ++ tier ++ "). Tried: " ++ String.intercalate ", " tried ++
    ". Last error: " ++ lastMsg ++
    ". Configure additional fallback profiles or wait for rate limits to reset."

/-- The `for` loop of `directGenerate` over the (remaining) fallback
chain, carrying the limiter state, the `triedProfiles` accumulator and
`lastError`.  Returns the JS result, the limiter state, and the final
`triedProfiles` list. -/
def tryLoop (env : FetchEnv) (now : Nat) (npcId tier : String) :
    List Profile → RLState → List String → Option JsError →
    Except JsError String × RLState × List String
  | [], s, tried, lastError =>
      (Except.error (mkError (exhaustMsg npcId tier tried (lastErrorMessage lastError))),
        s, tried)
  | p :: rest, s, tried, _ =>
      let tried' := tried ++ [p.name]
      match singleProfileGenerate env s now (some p) npcId tier with
      | (Except.ok r, s1) => (Except.ok r, s1, tried')
      | (Except.error e, s1) =>
          if e.isRateLimited then
            tryLoop env now npcId tier rest s1 tried' (some e)
          else
            (Except.error (wrapNetworkError npcId tier p.name e), s1, tried')

/-- The single-profile path of `directGenerate` (no usable tier, or an
empty chain): one `singleProfileGenerate` with network-error
wrapping.  Tried-profile tracking does not exist on this path. -/
def directSingle (env : FetchEnv) (s : RLState) (now : Nat)
    (profile : Option Profile) (npcId tier : String) : Except JsError String × RLState :=
  match singleProfileGenerate env s now profile npcId tier with
  | (Except.ok r, s1) => (Except.ok r, s1)
  | (Except.error e, s1) =>
      (Except.error (wrapNetworkError npcId tier (profileNameOf profile) e), s1)

/-- The `startIndex` computation of `directGenerate`: start at the
caller-provided profile's position in the chain when it occurs there. -/
def chainStartIndex (profiles : List Profile) (profile : Option Profile) : Nat :=
  match profile with
  | none => 0
  | some p =>
      match profiles.findIdx? (fun q => q.name = p.name) with
      | some i => i
      | none => 0

/-- `directGenerate(messages, profile, options)`.  `tierChains` is the
oracle for `getProfilesForTier` (settings + profile-name resolution,
external to this core).  Returns the JS result, the limiter state and
the `triedProfiles` list (empty on the single-profile paths, which do
not track attempts). -/
def directGenerate (env : FetchEnv) (tierChains : String → List Profile)
    (s : RLState) (now : Nat) (profile : Option Profile)
    (npcId tier : String) (useFallback : Bool) :
    Except JsError String × RLState × List String :=
  if useFallback = false ∨ tier = "unknown" ∨ tier ∉ TIERS then
    let r := directSingle env s now profile npcId tier
    (r.1, r.2, [])
  else
    let profiles := tierChains tier
    if profiles.length = 0 then
      let r := directSingle env s now profile npcId tier
      (r.1, r.2, [])
    else
      tryLoop env now npcId tier (profiles.drop (chainStartIndex profiles profile))
        s [] none

/-- `true` when the JS call threw (the `Except` is an `error`). -/
def isThrown (r : Except JsError String) : Bool :=
  match r with
  | Except.error _ => true
  | Except.ok _ => false

example :
    (directGenerate (fun _ => FetchOutcome.httpError 429 "Too Many Requests" none)
      (fun _ => [⟨"A"⟩, ⟨"B"⟩]) [] 0 none "npc" "standard" true).2.2 = ["A", "B"] := by
  decide

/-! ## Orchestrator (`src/orchestrator.js`)

The source quotes profile names with ASCII apostrophes in a few log
and error strings; those quote characters are omitted from the
embedded message text (the surrounding words are kept verbatim). -/

/-- The per-NPC result object produced by `executeNPCRequest` (and by
the pre-failed paths of `spawnNPCResponses` / `aggregateResults`). -/
structure Outcome where
  npc : String
  success : Bool
  response : Option String
  error : Option String
  latency : Nat
  tier : Option String
deriving DecidableEq, Repr

/-- One element of a `Promise.allSettled` result array.  A `rejected`
entry carries `reason?.message` (`none` models a reason without a
`message` property). -/
inductive Settled where
  | fulfilled (v : Outcome)
  | rejected (reasonMessage : Option String)
deriving DecidableEq, Repr

/-- What the awaited per-NPC pipeline inside `executeNPCRequest`'s
`try` block (tier inference, prompt building, `directGenerate`, and
the response-shape extraction down to `responseText`) does for a given
NPC name: either the extracted text, or a thrown `JsError`; the
elapsed wall-clock `latency` and the inferred `tier` are part of the
oracle since both come from outside the control flow under proof. -/
inductive ExecBehavior where
  | ok (text : String) (latency : Nat) (tier : String)
  | err (e : JsError) (latency : Nat)
deriving DecidableEq, Repr

/-- Per-NPC pipeline oracle, keyed by NPC name. -/
abbrev ExecEnv := String → ExecBehavior

/-- `executeNPCRequest(npcName, ...)`: runs the pipeline under a
`try`/`catch` that turns any thrown error into a failure outcome
(`'Aborted'` for `AbortError`), so the returned promise always
fulfills with exactly one result object. -/
def executeNPCRequest (env : ExecEnv) (npcName : String) : Outcome :=
  match env npcName with
  | ExecBehavior.ok text latency tier =>
      { npc := npcName, success := true, response := some (jsTrim text),
        error := none, latency := latency, tier := some tier }
  | ExecBehavior.err e latency =>
      { npc := npcName, success := false, response := none,
        error := some (if e.name = "AbortError" then "Aborted" else e.message),
        latency := latency, tier := none }

/-- `npcs[index] || 'NPC_' + index` (an out-of-range index and an
empty-string element are both falsy). -/
def fallbackNpcName (npcs : List String) (i : Nat) : String :=
  match npcs.get? i with
  | some n => if n = "" then "NPC_" ++ toString i else n
  | none => "NPC_" ++ toString i

/-- The body of `aggregateResults`'s `results.map((result, index) => ...)`
for one settled entry. -/
def processOne (npcs : List String) (i : Nat) : Settled → Outcome
  | Settled.fulfilled v => v
  | Settled.rejected reasonMessage =>
      { npc := fallbackNpcName npcs i, success := false, response := none,
        error := some (match reasonMessage with
          | some m => if m = "" then "Unknown error" else m
          | none => "Unknown error"),
        latency := 0, tier := none }

/-- `results.map((result, index) => ...)` with the running index. -/
def processFrom (npcs : List String) : Nat → List Settled → List Outcome
  | _, [] => []
  | i, r :: rs => processOne npcs i r :: processFrom npcs (i + 1) rs

/-- The `processed` array of `aggregateResults`. -/
def processResults (npcs : List String) (results : List Settled) : List Outcome :=
  processFrom npcs 0 results

/-- The aborted-outcome test of `aggregateResults`'s filter:
`!r.success && r.error === 'Aborted'`. -/
def isAborted (r : Outcome) : Bool :=
  !r.success && r.error == some "Aborted"

/-- `Math.round(total / count)` on a nonnegative exact ratio:
`floor(total/count + 1/2)` (JS `Math.round` rounds half toward +inf),
expressed over naturals.  `count` must be positive. -/
def roundDiv (total count : Nat) : Nat :=
  (2 * total + count) / (2 * count)

/-- The markdown accumulation loop of `aggregateResults`, starting
from the `'## NPC Responses\n\n'` header.  A `none` field interpolated
into a JS template renders as `"null"`. -/
def markdownFor (acc : String) : List Outcome → String
  | [] => acc
  | r :: rest =>
      markdownFor
        (acc ++ "### " ++ r.npc ++ "\n" ++
          (if r.success then (r.response.getD "null") ++ "\n\n"
           else "*[Generation failed: " ++ (r.error.getD "null") ++ "]*\n\n"))
        rest

/-- The `stats` object of a batch result. -/
structure Stats where
  total : Nat
  success : Nat
  failed : Nat
  avgLatency : Nat
deriving DecidableEq, Repr

/-- The aggregated return value of `aggregateResults` /
`spawnNPCResponses` (the random `correlationId`, used only for log
correlation, is not modelled). -/
structure BatchResult where
  results : List Outcome
  markdown : String
  stats : Stats
deriving DecidableEq, Repr

/-- `aggregateResults(results, npcs, correlationId)`. -/
def aggregateResults (results : List Settled) (npcs : List String) : BatchResult :=
  let processed := processResults npcs results
  let nonAborted := processed.filter (fun r => !(isAborted r))
  let successCount := (nonAborted.filter (fun r => r.success)).length
  let failCount := (nonAborted.filter (fun r => !r.success)).length
  let totalLatency := nonAborted.foldl (fun acc r => acc + r.latency) 0
  let avgLatency := if 0 < nonAborted.length then roundDiv totalLatency nonAborted.length else 0
  { results := processed,
    markdown := jsTrim (markdownFor "## NPC Responses\n\n" nonAborted),
    stats := { total := nonAborted.length, success := successCount,
               failed := failCount, avgLatency := avgLatency } }

/-- The module-level orchestrator state: every `AbortController`
allocated so far (its `aborted` flag, indexed by allocation order) and
`currentAbortController` as an index into that list (`none` =
`null`). -/
structure OrchSt where
  controllers : List Bool
  current : Option Nat
deriving DecidableEq, Repr

/-- The initial module state (`currentAbortController = null`). -/
def OrchSt.init : OrchSt := { controllers := [], current := none }

/-- The characters array of the SillyTavern context: each character's
`name` property (`none` for a character object without one). -/
abbrev Characters := List (Option String)

/-- `findCharacterByName(name)`: case-insensitive, trimmed match
against the characters array; `null` for a falsy name or no match. -/
def findCharacterByName (chars : Characters) (name : String) : Option Nat :=
  if name = "" then none
  else
    chars.findIdx? (fun c =>
      match c with
      | some cn => jsTrim (jsToLower cn) = jsTrim (jsToLower name)
      | none => false)

/-- The early-return `BatchResult` of `spawnNPCResponses`'s input
validation. -/
def emptyBatch (msg : String) : BatchResult :=
  { results := [], markdown := msg,
    stats := { total := 0, success := 0, failed := 0, avgLatency := 0 } }

/-- The pre-failed result `spawnNPCResponses` resolves for a name
`findCharacterByName` cannot resolve. -/
def notFoundOutcome (npcName : String) : Outcome :=
  { npc := npcName, success := false, response := none,
    error := some ("Character \"" ++ npcName ++ "\" not found"),
    latency := 0, tier := none }

/-- The body of `spawnNPCResponses`'s `npcs.map(npcName => ...)`:
resolve the name; a missing character yields the pre-failed result
(`Promise.resolve`), otherwise `executeNPCRequest` runs (its result
depending on the per-NPC pipeline oracle, not on the resolved id). -/
def resolveNPC (env : ExecEnv) (chars : Characters) (npcName : String) : Outcome :=
  match findCharacterByName chars npcName with
  | none => notFoundOutcome npcName
  | some _ => executeNPCRequest env npcName

/-- `spawnNPCResponses({npcs, situation, format})`.  `situation` is
`none` for a missing or non-string value.  The call is modelled to
completion: the returned state is the module state after the batch's
promises have all settled and the aggregate has been produced.  All
mapped promises fulfill (the not-found path is `Promise.resolve`, and
`executeNPCRequest` catches every error), so the settled array is the
per-name fulfilled list. -/
def spawnNPCResponses (env : ExecEnv) (chars : Characters) (st : OrchSt)
    (npcs : List String) (situation : Option String) : OrchSt × BatchResult :=
  let st1 : OrchSt :=
    match st.current with
    | some i => { st with controllers := st.controllers.set i true }
    | none => st
  let st2 : OrchSt :=
    { controllers := st1.controllers ++ [false], current := some st1.controllers.length }
  if npcs.length = 0 then
    (st2, emptyBatch "*No NPCs specified for response generation.*")
  else
    match situation with
    | none => (st2, emptyBatch "*No situation provided for NPC responses.*")
    | some sit =>
        if sit = "" then
          (st2, emptyBatch "*No situation provided for NPC responses.*")
        else
          let settled := npcs.map (fun npcName =>
            Settled.fulfilled (resolveNPC env chars npcName))
          (st2, aggregateResults settled npcs)

/-- `abortCurrentSpawn()`: returns the boolean result and the updated
module state. -/
def abortCurrentSpawn (st : OrchSt) : Bool × OrchSt :=
  match st.current with
  | some i => (true, { controllers := st.controllers.set i true, current := none })
  | none => (false, st)

example :
    ((spawnNPCResponses (fun _ => ExecBehavior.ok "hi" 7 "minor") [some "Alice"]
      OrchSt.init ["Alice"] (some "door")).2).stats =
      { total := 1, success := 1, failed := 0, avgLatency := 7 } := by decide

/-! ## Map lemmas for the rate limiter -/

theorem lookupRec_setRec (s : RLState) (n k : String) (r : RLRecord) :
    lookupRec (setRec s n r) k = if k = n then some r else lookupRec s k := by
  induction s with
  | nil =>
      by_cases h : k = n
      · subst h; simp [setRec, lookupRec]
      · simp [setRec, lookupRec, h, Ne.symm h]
  | cons p rest ih =>
      obtain ⟨a, b⟩ := p
      by_cases ha : a = n
      · subst ha
        by_cases hk : k = a
        · subst hk; simp [setRec, lookupRec]
        · simp [setRec, lookupRec, hk, Ne.symm hk]
      · by_cases hk : a = k
        · subst hk
          simp [setRec, lookupRec, ha, Ne.symm ha]
        · simp [setRec, lookupRec, ha, hk, ih]

theorem lookupRec_append (s t : RLState) (k : String) :
    lookupRec (s ++ t) k =
      match lookupRec s k with
      | some r => some r
      | none => lookupRec t k := by
  induction s with
  | nil => simp [lookupRec]
  | cons p rest ih =>
      obtain ⟨a, b⟩ := p
      by_cases h : a = k <;> simp [lookupRec, h, ih]

theorem getState_of_some {s : RLState} {n : String} {r : RLRecord}
    (h : lookupRec s n = some r) : getState s n = (r, s) := by
  simp [getState, h]

theorem getState_of_none {s : RLState} {n : String}
    (h : lookupRec s n = none) :
    getState s n = (RLRecord.fresh, s ++ [(n, RLRecord.fresh)]) := by
  simp [getState, h]

theorem lookupRec_getState (s : RLState) (n : String) :
    lookupRec (getState s n).2 n = some (getState s n).1 := by
  cases h : lookupRec s n with
  | some r => simp [getState_of_some h, h]
  | none => simp [getState_of_none h, lookupRec_append, h, lookupRec]

/-! ## Claims C5 and C6: recordRateLimit -/

theorem recordRateLimit_retryIn_eq (s : RLState) (n : String) (now : Nat)
    (h : Option Int) :
    (recordRateLimit s n now h).1.retryIn =
      min (match h with
        | some v => if 0 < v then v.toNat * 1000
            else calculateBackoff ((getState s n).1.consecutiveErrors + 1)
        | none => calculateBackoff ((getState s n).1.consecutiveErrors + 1))
        MAX_DELAY_MS := rfl

theorem recordRateLimit_retryIn_pos (s : RLState) (n : String) (now : Nat)
    (h : Option Int) : 0 < (recordRateLimit s n now h).1.retryIn := by
  have hb : ∀ k, 0 < calculateBackoff (k + 1) := by
    intro k
    have h2 : (0 : Nat) < 2 ^ (k + 1) := Nat.pos_pow_of_pos _ (by omega)
    simp only [calculateBackoff, BASE_DELAY_MS, MAX_DELAY_MS, Nat.lt_min]
    constructor
    · exact Nat.mul_pos (by omega) h2
    · omega
  rw [recordRateLimit_retryIn_eq]
  rw [Nat.lt_min]
  refine ⟨?_, by simp [MAX_DELAY_MS]⟩
  cases h with
  | none => exact hb _
  | some v =>
      by_cases hv : 0 < v
      · simp only [hv, if_true]
        have : 1 ≤ v.toNat := by omega
        omega
      · simp only [hv, if_false]
        exact hb _

theorem recordRateLimit_state (s : RLState) (n : String) (now : Nat) (h : Option Int) :
    (recordRateLimit s n now h).2 =
      setRec (getState s n).2 n
        { isLimited := true,
          nextAttemptTime := now + (recordRateLimit s n now h).1.retryIn,
          consecutiveErrors := (getState s n).1.consecutiveErrors + 1 } := by
  simp [recordRateLimit]

/-- C5: every `recordRateLimit(profileName, retryAfterSeconds)` call
increments `consecutiveErrors` by one and marks the record limited
with `nextAttemptTime = now + retryIn`, where `retryIn` is
`min(maxDelay, baseDelay * 2^consecutiveErrors)` unless a valid
positive `retryAfterSeconds` was supplied, in which case it is
`retryAfterSeconds * 1000` capped at `maxDelay`; an immediate
`checkRateLimit` then reports limited with exactly that `retryIn`. -/
theorem claim_C5_record_rate_limit_backoff (s : RLState) (n : String) (now : Nat)
    (h : Option Int) :
    lookupRec (recordRateLimit s n now h).2 n =
      some { isLimited := true,
             nextAttemptTime := now + (recordRateLimit s n now h).1.retryIn,
             consecutiveErrors := (getState s n).1.consecutiveErrors + 1 } ∧
    (recordRateLimit s n now h).1.nextAttemptTime =
      now + (recordRateLimit s n now h).1.retryIn ∧
    (∀ v : Int, h = some v → 0 < v →
      (recordRateLimit s n now h).1.retryIn = min (v.toNat * 1000) MAX_DELAY_MS) ∧
    ((∀ v : Int, h = some v → v ≤ 0) →
      (recordRateLimit s n now h).1.retryIn =
        min (BASE_DELAY_MS * 2 ^ ((getState s n).1.consecutiveErrors + 1)) MAX_DELAY_MS) ∧
    (checkRateLimit (recordRateLimit s n now h).2 n now).1.isLimited = true ∧
    (checkRateLimit (recordRateLimit s n now h).2 n now).1.retryIn =
      some (recordRateLimit s n now h).1.retryIn := by
  have hlook : lookupRec (recordRateLimit s n now h).2 n =
      some { isLimited := true,
             nextAttemptTime := now + (recordRateLimit s n now h).1.retryIn,
             consecutiveErrors := (getState s n).1.consecutiveErrors + 1 } := by
    rw [recordRateLimit_state, lookupRec_setRec]
    simp
  have hpos := recordRateLimit_retryIn_pos s n now h
  refine ⟨hlook, rfl, ?_, ?_, ?_, ?_⟩
  · intro v hv hvpos
    subst hv
    rw [recordRateLimit_retryIn_eq]
    simp [hvpos]
  · intro hz
    rw [recordRateLimit_retryIn_eq]
    cases h with
    | none =>
        simp [calculateBackoff, Nat.min_assoc]
    | some v =>
        have hv : ¬ (0 : Int) < v := by have := hz v rfl; omega
        simp [hv, calculateBackoff, Nat.min_assoc]
  · have hnotle : ¬ (now + (recordRateLimit s n now h).1.retryIn ≤ now) := by omega
    simp [checkRateLimit, getState_of_some hlook, hnotle]
  · have hnotle : ¬ (now + (recordRateLimit s n now h).1.retryIn ≤ now) := by omega
    simp [checkRateLimit, getState_of_some hlook, hnotle, Nat.add_sub_cancel_left]

/-- Witness for C5 at `Retry-After: 10` on a fresh limiter. -/
theorem claim_C5_record_rate_limit_witness :
    (recordRateLimit [] "P1" 0 (some 10)).1.retryIn =
      min ((10 : Int).toNat * 1000) MAX_DELAY_MS ∧
    (checkRateLimit (recordRateLimit [] "P1" 0 (some 10)).2 "P1" 0).1.retryIn =
      some (recordRateLimit [] "P1" 0 (some 10)).1.retryIn :=
  ⟨(claim_C5_record_rate_limit_backoff [] "P1" 0 (some 10)).2.2.1 10 rfl (by decide),
   (claim_C5_record_rate_limit_backoff [] "P1" 0 (some 10)).2.2.2.2.2⟩

/-- `k` consecutive `recordRateLimit(p)` calls with no `Retry-After`
header and no intervening success, at the given sequence of clock
readings; returns the list of returned `retryIn` values and the final
limiter state. -/
def rlIterate (n : String) : RLState → List Nat → List Nat × RLState
  | s, [] => ([], s)
  | s, now :: rest =>
      let r := recordRateLimit s n now none
      let t := rlIterate n r.2 rest
      (r.1.retryIn :: t.1, t.2)

theorem recordRateLimit_none_retryIn (s : RLState) (n : String) (now : Nat) :
    (recordRateLimit s n now none).1.retryIn =
      calculateBackoff ((getState s n).1.consecutiveErrors + 1) := by
  rw [recordRateLimit_retryIn_eq]
  simp [calculateBackoff, Nat.min_assoc]

theorem recordRateLimit_count (s : RLState) (n : String) (now : Nat) (h : Option Int) :
    (getState (recordRateLimit s n now h).2 n).1.consecutiveErrors =
      (getState s n).1.consecutiveErrors + 1 := by
  have hlook := (claim_C5_record_rate_limit_backoff s n now h).1
  rw [getState_of_some hlook]

theorem rlIterate_formula (n : String) (times : List Nat) :
    ∀ s : RLState,
      (rlIterate n s times).1 =
        (List.range times.length).map
          (fun i => calculateBackoff ((getState s n).1.consecutiveErrors + 1 + i)) := by
  induction times with
  | nil => intro s; simp [rlIterate]
  | cons now rest ih =>
      intro s
      simp only [rlIterate, recordRateLimit_none_retryIn, List.length_cons,
        List.range_succ_eq_map, List.map_cons, List.map_map]
      congr 1
      · rw [ih]
        rw [recordRateLimit_count]
        apply List.map_congr_left
        intro i _
        simp only [Function.comp_apply]
        congr 1
        omega

theorem calculateBackoff_mono {i j : Nat} (h : i ≤ j) :
    calculateBackoff i ≤ calculateBackoff j := by
  unfold calculateBackoff
  exact min_le_min (Nat.mul_le_mul_left _ (Nat.pow_le_pow_right (by omega) h)) le_rfl

/-- C6: `k` consecutive `recordRateLimit(p)` calls with no intervening
success and no `Retry-After` override return a monotonically
non-decreasing sequence of `retryIn` values, never exceeding
`MAX_DELAY_MS`, from any starting state and any clock readings. -/
theorem claim_C6_retry_monotone (s : RLState) (n : String) (times : List Nat)
    (i j : Nat) (hij : i ≤ j) (hj : j < (rlIterate n s times).1.length) :
    (rlIterate n s times).1.getD i 0 ≤ (rlIterate n s times).1.getD j 0 ∧
    (rlIterate n s times).1.getD j 0 ≤ MAX_DELAY_MS := by
  have hf := rlIterate_formula n times s
  have hlen : (rlIterate n s times).1.length = times.length := by rw [hf]; simp
  have hj' : j < times.length := hlen ▸ hj
  have hi' : i < times.length := lt_of_le_of_lt hij hj'
  have hgd : ∀ k, k < times.length → (rlIterate n s times).1.getD k 0 =
      calculateBackoff ((getState s n).1.consecutiveErrors + 1 + k) := by
    intro k hk
    rw [hf]
    simp [List.getD, List.getElem?_map, List.getElem?_range hk]
  rw [hgd i hi', hgd j hj']
  constructor
  · exact calculateBackoff_mono (by omega)
  · exact min_le_right _ _

/-- Witness for C6: three consecutive 429s on a fresh limiter. -/
theorem claim_C6_retry_monotone_witness :
    (rlIterate "P1" [] [0, 0, 0]).1.getD 0 0 ≤ (rlIterate "P1" [] [0, 0, 0]).1.getD 2 0 ∧
    (rlIterate "P1" [] [0, 0, 0]).1.getD 2 0 ≤ MAX_DELAY_MS :=
  claim_C6_retry_monotone [] "P1" [0, 0, 0] 0 2 (by decide) (by decide)

/-! ## Claims C7 and C8: checkRateLimit -/

/-- `clearRateLimit(profileName)` (`rateLimitState.delete`). -/
def clearRateLimit : RLState → String → RLState
  | [], _ => []
  | (k, v) :: rest, n => if k = n then rest else (k, v) :: clearRateLimit rest n

/-- `clearAllRateLimits()` (`rateLimitState.clear`). -/
def clearAllRateLimits : RLState := []

/-- The rate-limiter states reachable through its public operations,
with a non-decreasing clock (`RLReach s t`: state `s` can exist with
all operations so far issued at times `≤ t`). -/
inductive RLReach : RLState → Nat → Prop where
  | init : RLReach [] 0
  | tick {s : RLState} {t u : Nat} : RLReach s t → t ≤ u → RLReach s u
  | stepCheck {s : RLState} {t : Nat} (n : String) :
      RLReach s t → RLReach (checkRateLimit s n t).2 t
  | stepSuccess {s : RLState} {t : Nat} (n : String) :
      RLReach s t → RLReach (recordSuccess s n) t
  | stepLimit {s : RLState} {t : Nat} (n : String) (h : Option Int) :
      RLReach s t → RLReach (recordRateLimit s n t h).2 t
  | stepClear {s : RLState} {t : Nat} (n : String) :
      RLReach s t → RLReach (clearRateLimit s n) t
  | stepClearAll {s : RLState} {t : Nat} : RLReach s t → RLReach clearAllRateLimits t

/-- The lazy-expiry invariant: any record whose `limited` flag is
already clear has a `nextAttemptTime` in the past. -/
def RLInv (s : RLState) (t : Nat) : Prop :=
  ∀ p : String × RLRecord, p ∈ s → p.2.isLimited = false → p.2.nextAttemptTime ≤ t

theorem lookupRec_mem {s : RLState} {n : String} {r : RLRecord}
    (h : lookupRec s n = some r) : (n, r) ∈ s := by
  induction s with
  | nil => simp [lookupRec] at h
  | cons p rest ih =>
      obtain ⟨a, b⟩ := p
      by_cases ha : a = n
      · subst ha
        simp [lookupRec] at h
        simp [h]
      · simp [lookupRec, ha] at h
        exact List.mem_cons_of_mem _ (ih h)

theorem mem_setRec {s : RLState} {n : String} {r : RLRecord}
    {p : String × RLRecord} (h : p ∈ setRec s n r) : p = (n, r) ∨ p ∈ s := by
  induction s with
  | nil => simp [setRec] at h; simp [h]
  | cons q rest ih =>
      obtain ⟨a, b⟩ := q
      by_cases ha : a = n
      · subst ha
        simp [setRec] at h
        rcases h with h | h
        · exact Or.inl h
        · exact Or.inr (List.mem_cons_of_mem _ h)
      · simp [setRec, ha] at h
        rcases h with h | h
        · exact Or.inr (by simp [h])
        · rcases ih h with h' | h'
          · exact Or.inl h'
          · exact Or.inr (List.mem_cons_of_mem _ h')

theorem mem_clearRateLimit {s : RLState} {n : String}
    {p : String × RLRecord} (h : p ∈ clearRateLimit s n) : p ∈ s := by
  induction s with
  | nil => simp [clearRateLimit] at h
  | cons q rest ih =>
      obtain ⟨a, b⟩ := q
      by_cases ha : a = n
      · simp [clearRateLimit, ha] at h
        exact List.mem_cons_of_mem _ h
      · simp [clearRateLimit, ha] at h
        rcases h with h | h
        · simp [h]
        · exact List.mem_cons_of_mem _ (ih h)

theorem inv_setRec {s : RLState} {t : Nat} {n : String} {r : RLRecord}
    (hI : RLInv s t) (hr : r.isLimited = false → r.nextAttemptTime ≤ t) :
    RLInv (setRec s n r) t := by
  intro p hp hf
  rcases mem_setRec hp with h | h
  · subst h; exact hr hf
  · exact hI p h hf

theorem inv_getState {s : RLState} {t : Nat} (hI : RLInv s t) (n : String) :
    RLInv (getState s n).2 t := by
  cases hg : lookupRec s n with
  | some r => rw [getState_of_some hg]; exact hI
  | none =>
      rw [getState_of_none hg]
      intro p hp hf
      rcases List.mem_append.mp hp with h | h
      · exact hI p h hf
      · simp at h
        subst h
        simp [RLRecord.fresh]

theorem inv_check {s : RLState} {t : Nat} (hI : RLInv s t) (n : String) :
    RLInv (checkRateLimit s n t).2 t := by
  have hg := inv_getState hI n
  by_cases h1 : (getState s n).1.isLimited = false
  · have : (checkRateLimit s n t).2 = (getState s n).2 := by
      simp [checkRateLimit, h1]
    rw [this]; exact hg
  · by_cases h2 : (getState s n).1.nextAttemptTime ≤ t
    · have : (checkRateLimit s n t).2 =
          setRec (getState s n).2 n { (getState s n).1 with isLimited := false } := by
        simp [checkRateLimit, h1, h2]
      rw [this]
      exact inv_setRec hg (fun _ => h2)
    · have : (checkRateLimit s n t).2 = (getState s n).2 := by
        simp [checkRateLimit, h1, h2]
      rw [this]; exact hg

theorem inv_success {s : RLState} {t : Nat} (hI : RLInv s t) (n : String) :
    RLInv (recordSuccess s n) t := by
  have hg := inv_getState hI n
  simp only [recordSuccess]
  exact inv_setRec hg (fun _ => Nat.zero_le t)

theorem inv_limit {s : RLState} {t : Nat} (hI : RLInv s t) (n : String)
    (h : Option Int) : RLInv (recordRateLimit s n t h).2 t := by
  have hg := inv_getState hI n
  rw [recordRateLimit_state]
  exact inv_setRec hg (fun hf => by simp at hf)

theorem rlReach_inv {s : RLState} {t : Nat} (h : RLReach s t) : RLInv s t := by
  induction h with
  | init => intro p hp; simp at hp
  | tick _ hle ih => intro p hp hf; exact le_trans (ih p hp hf) hle
  | stepCheck n _ ih => exact inv_check ih n
  | stepSuccess n _ ih => exact inv_success ih n
  | stepLimit n hdr _ ih => exact inv_limit ih n hdr
  | stepClear n _ ih => intro p hp hf; exact ih p (mem_clearRateLimit hp) hf
  | stepClearAll _ _ => intro p hp; simp [clearAllRateLimits] at hp

/-- C7: `checkRateLimit` on any reachable limiter state at the current
time reports not-limited when no record exists; when a record exists
and `now >= nextAttemptAt` it reports not limited and the record's
limited flag ends up clear (lazy expiry on read); otherwise (a record
exists whose window has not yet passed) it reports limited with
`retryIn = nextAttemptAt - now`. -/
theorem claim_C7_check_lazy_expiry (s : RLState) (t : Nat) (n : String) (now : Nat)
    (r : RLRecord) (hreach : RLReach s t) (hnow : t ≤ now) :
    (lookupRec s n = none → (checkRateLimit s n now).1.isLimited = false) ∧
    (lookupRec s n = some r → r.nextAttemptTime ≤ now →
      (checkRateLimit s n now).1.isLimited = false ∧
      lookupRec (checkRateLimit s n now).2 n = some { r with isLimited := false }) ∧
    (lookupRec s n = some r → now < r.nextAttemptTime →
      (checkRateLimit s n now).1.isLimited = true ∧
      (checkRateLimit s n now).1.retryIn = some (r.nextAttemptTime - now)) := by
  refine ⟨?_, ?_, ?_⟩
  · intro hg
    simp [checkRateLimit, getState_of_none hg, RLRecord.fresh]
  · intro hg hle
    have h1 := getState_of_some hg
    by_cases hl : r.isLimited = false
    · constructor
      · simp [checkRateLimit, h1, hl]
      · have hst : (checkRateLimit s n now).2 = s := by simp [checkRateLimit, h1, hl]
        rw [hst, hg]
        congr 1
        cases r
        simp_all
    · constructor
      · simp [checkRateLimit, h1, hl, hle]
      · have hst : (checkRateLimit s n now).2 =
            setRec s n { r with isLimited := false } := by
          simp [checkRateLimit, h1, hl, hle]
        rw [hst, lookupRec_setRec]
        simp
  · intro hg hlt
    have h1 := getState_of_some hg
    have hl : r.isLimited = true := by
      cases hl : r.isLimited
      · have hinv : r.nextAttemptTime ≤ t :=
          rlReach_inv hreach (n, r) (lookupRec_mem hg) hl
        omega
      · rfl
    have hle : ¬ r.nextAttemptTime ≤ now := by omega
    constructor
    · simp [checkRateLimit, h1, hl, hle]
    · simp [checkRateLimit, h1, hl, hle]

/-- Witness for C7: a profile limited at time 0 (backoff 10000 ms),
checked at time 5. -/
theorem claim_C7_check_lazy_expiry_witness :
    (checkRateLimit (recordRateLimit [] "P1" 0 none).2 "P1" 5).1.isLimited = true ∧
    (checkRateLimit (recordRateLimit [] "P1" 0 none).2 "P1" 5).1.retryIn = some 9995 :=
  (claim_C7_check_lazy_expiry (recordRateLimit [] "P1" 0 none).2 0 "P1" 5
      { isLimited := true, nextAttemptTime := 10000, consecutiveErrors := 1 }
      (RLReach.stepLimit "P1" none RLReach.init) (by omega)).2.2
    (by decide) (by decide)

/-- C8 counterexample: a single `check` on a profile with no record
does change the limiter's record map — `getState` lazily inserts a
default record, so the map is not identical before and after. -/
theorem claim_C8_check_mutates_counterexample :
    (checkRateLimit [] "P1" 0).2 ≠ ([] : RLState) := by decide

/-- C8 (amended): `check(p)` is idempotent rather than
state-transparent — one call may lazily insert a default record or
clear an expired limited flag, but immediately repeating the call (no
intervening `recordRateLimit`/`recordSuccess`, same clock reading)
returns the same result and leaves the record map unchanged. -/
theorem claim_C8_check_idempotent (s : RLState) (n : String) (now : Nat) :
    checkRateLimit (checkRateLimit s n now).2 n now = checkRateLimit s n now := by
  cases hg : lookupRec s n with
  | none =>
      have h1 := getState_of_none hg
      have hfirst : checkRateLimit s n now =
          ({ isLimited := false, retryIn := none, reason := none },
            s ++ [(n, RLRecord.fresh)]) := by
        simp [checkRateLimit, h1, RLRecord.fresh]
      rw [hfirst]
      have hg2 : lookupRec (s ++ [(n, RLRecord.fresh)]) n = some RLRecord.fresh := by
        rw [lookupRec_append, hg]
        simp [lookupRec]
      simp only [RLRecord.fresh] at hg2
      simp [checkRateLimit, getState_of_some hg2, RLRecord.fresh]
  | some r =>
      have h1 := getState_of_some hg
      by_cases hl : r.isLimited = false
      · have hst : (checkRateLimit s n now).2 = s := by simp [checkRateLimit, h1, hl]
        rw [hst]
      · by_cases he : r.nextAttemptTime ≤ now
        · have hfirst : checkRateLimit s n now =
              ({ isLimited := false, retryIn := none, reason := none },
                setRec s n { r with isLimited := false }) := by
            simp [checkRateLimit, h1, hl, he]
          rw [hfirst]
          have hg2 : lookupRec (setRec s n { r with isLimited := false }) n =
              some { r with isLimited := false } := by
            rw [lookupRec_setRec]
            simp
          simp [checkRateLimit, getState_of_some hg2]
        · have hst : (checkRateLimit s n now).2 = s := by
            simp [checkRateLimit, h1, hl, he]
          rw [hst]

/-! ## Claims C3 and C4: the fallback chain of directGenerate -/

/-- A fetch outcome that is an HTTP 429 response. -/
def is429 : FetchOutcome → Bool
  | FetchOutcome.httpError status _ _ => status == 429
  | _ => false

theorem checkRateLimit_limited_state {s : RLState} {n : String} {now : Nat}
    (h : (checkRateLimit s n now).1.isLimited = true) :
    (checkRateLimit s n now).2 = s := by
  cases hg : lookupRec s n with
  | none =>
      exfalso
      simp [checkRateLimit, getState_of_none hg, RLRecord.fresh] at h
  | some r =>
      have h1 := getState_of_some hg
      by_cases hl : r.isLimited = false
      · exfalso; simp [checkRateLimit, h1, hl] at h
      · by_cases he : r.nextAttemptTime ≤ now
        · exfalso; simp [checkRateLimit, h1, hl, he] at h
        · simp [checkRateLimit, h1, hl, he]

theorem singleProfileGenerate_of_limited (env : FetchEnv) (s : RLState) (now : Nat)
    (p : Profile) (npcId tier : String)
    (h : (checkRateLimit s p.name now).1.isLimited = true) :
    singleProfileGenerate env s now (some p) npcId tier =
      (Except.error
        { name := "Error",
          message := "[Ensemble] Rate limited: " ++
            (((checkRateLimit s p.name now).1.reason).getD "null") ++ ". Retry in " ++
            toString (ceilSeconds (((checkRateLimit s p.name now).1.retryIn).getD 0)) ++ "s",
          isRateLimited := true, profileName := some p.name },
        (checkRateLimit s p.name now).2) := by
  simp [singleProfileGenerate, profileNameOf, h]

theorem singleProfileGenerate_of_ok (env : FetchEnv) (s : RLState) (now : Nat)
    (p : Profile) (npcId tier : String) (text : String)
    (hl : (checkRateLimit s p.name now).1.isLimited = false)
    (henv : env p.name = FetchOutcome.ok text) :
    singleProfileGenerate env s now (some p) npcId tier =
      (Except.ok text, recordSuccess (checkRateLimit s p.name now).2 p.name) := by
  simp [singleProfileGenerate, profileNameOf, hl, henv]

theorem singleProfileGenerate_of_429resp (env : FetchEnv) (s : RLState) (now : Nat)
    (p : Profile) (npcId tier statusText : String) (retryAfter : Option Int)
    (hl : (checkRateLimit s p.name now).1.isLimited = false)
    (henv : env p.name = FetchOutcome.httpError 429 statusText retryAfter) :
    singleProfileGenerate env s now (some p) npcId tier =
      (Except.error
        { name := "Error",
          message := "[Ensemble] Rate limit (429) from " ++ p.name ++ " for " ++ npcId ++
            " (tier: " ++ tier ++ "). Retry in " ++
            toString (ceilSeconds
              (recordRateLimit (checkRateLimit s p.name now).2 p.name now retryAfter).1.retryIn) ++
            "s",
          isRateLimited := true, profileName := some p.name },
        (recordRateLimit (checkRateLimit s p.name now).2 p.name now retryAfter).2) := by
  simp [singleProfileGenerate, profileNameOf, hl, henv]

theorem singleProfileGenerate_429 (env : FetchEnv) (s : RLState) (now : Nat)
    (p : Profile) (npcId tier : String) (h : is429 (env p.name) = true) :
    ∃ e s1, singleProfileGenerate env s now (some p) npcId tier = (Except.error e, s1) ∧
      e.isRateLimited = true := by
  cases henv : env p.name with
  | ok text => rw [henv] at h; simp [is429] at h
  | thrown e => rw [henv] at h; simp [is429] at h
  | httpError status statusText retryAfter =>
      rw [henv] at h
      simp [is429] at h
      subst h
      by_cases hl : (checkRateLimit s p.name now).1.isLimited = true
      · refine ⟨_, _, singleProfileGenerate_of_limited env s now p npcId tier hl, ?_⟩
        rfl
      · have hl' : (checkRateLimit s p.name now).1.isLimited = false := by
          cases hb : (checkRateLimit s p.name now).1.isLimited
          · rfl
          · exact absurd hb hl
        refine ⟨_, _,
          singleProfileGenerate_of_429resp env s now p npcId tier statusText retryAfter hl' henv,
          ?_⟩
        rfl

theorem tryLoop_step_rl (env : FetchEnv) (now : Nat) (npcId tier : String)
    (p : Profile) (rest : List Profile) (s s1 : RLState) (tried : List String)
    (le : Option JsError) (e : JsError)
    (hres : singleProfileGenerate env s now (some p) npcId tier = (Except.error e, s1))
    (hrl : e.isRateLimited = true) :
    tryLoop env now npcId tier (p :: rest) s tried le =
      tryLoop env now npcId tier rest s1 (tried ++ [p.name]) (some e) := by
  simp [tryLoop, hres, hrl]

theorem tryLoop_step_stop (env : FetchEnv) (now : Nat) (npcId tier : String)
    (p : Profile) (rest : List Profile) (s s1 : RLState) (tried : List String)
    (le : Option JsError) (e : JsError)
    (hres : singleProfileGenerate env s now (some p) npcId tier = (Except.error e, s1))
    (hrl : e.isRateLimited = false) :
    tryLoop env now npcId tier (p :: rest) s tried le =
      (Except.error (wrapNetworkError npcId tier p.name e), s1, tried ++ [p.name]) := by
  simp [tryLoop, hres, hrl]

theorem tryLoop_step_ok (env : FetchEnv) (now : Nat) (npcId tier : String)
    (p : Profile) (rest : List Profile) (s s1 : RLState) (tried : List String)
    (le : Option JsError) (text : String)
    (hres : singleProfileGenerate env s now (some p) npcId tier = (Except.ok text, s1)) :
    tryLoop env now npcId tier (p :: rest) s tried le =
      (Except.ok text, s1, tried ++ [p.name]) := by
  simp [tryLoop, hres]

theorem directGenerate_fallback (env : FetchEnv) (tierChains : String → List Profile)
    (s : RLState) (now : Nat) (npcId tier : String)
    (htier : tier ∈ TIERS) (hne : tierChains tier ≠ []) :
    directGenerate env tierChains s now none npcId tier true =
      tryLoop env now npcId tier (tierChains tier) s [] none := by
  have hunk : tier ≠ "unknown" := by
    intro h
    rw [h] at htier
    simp [TIERS] at htier
  have hlen : ¬ (tierChains tier).length = 0 := by
    intro h
    exact hne (List.length_eq_zero.mp h)
  simp [directGenerate, htier, hunk, hlen, chainStartIndex]

theorem tryLoop_exhausts_last (env : FetchEnv) (now : Nat) (npcId tier : String) :
    ∀ (front : List Profile) (p : Profile) (s : RLState) (tried : List String)
      (le : Option JsError),
      (∀ q ∈ front ++ [p], is429 (env q.name) = true) →
      ∃ spre e slast,
        singleProfileGenerate env spre now (some p) npcId tier = (Except.error e, slast) ∧
        e.isRateLimited = true ∧
        tryLoop env now npcId tier (front ++ [p]) s tried le =
          (Except.error (mkError (exhaustMsg npcId tier
              (tried ++ (front ++ [p]).map Profile.name) (lastErrorMessage (some e)))),
            slast, tried ++ (front ++ [p]).map Profile.name) := by
  intro front
  induction front with
  | nil =>
      intro p s tried le hall
      obtain ⟨e, s1, hres, hrl⟩ :=
        singleProfileGenerate_429 env s now p npcId tier (hall p (by simp))
      refine ⟨s, e, s1, hres, hrl, ?_⟩
      rw [List.nil_append]
      rw [tryLoop_step_rl env now npcId tier p [] s s1 tried le e hres hrl]
      simp [tryLoop]
  | cons q front' ih =>
      intro p s tried le hall
      obtain ⟨e0, s1, hres0, hrl0⟩ :=
        singleProfileGenerate_429 env s now q npcId tier (hall q (by simp))
      obtain ⟨spre, e, slast, h1, h2, h3⟩ := ih p s1 (tried ++ [q.name]) (some e0)
        (fun r hr => hall r (by rw [List.cons_append]; exact List.mem_cons_of_mem _ hr))
      refine ⟨spre, e, slast, h1, h2, ?_⟩
      rw [List.cons_append]
      rw [tryLoop_step_rl env now npcId tier q (front' ++ [p]) s s1 tried le e0 hres0 hrl0]
      rw [h3]
      simp

/-- C3 counterexample: with a configured chain `[A, B]` where both
profiles answer 429, `directGenerate` throws (an `Except.error`, i.e.
a JS exception reaching its caller) instead of returning an outcome —
the claim's "never throws an exception to its caller" fails. -/
theorem claim_C3_throws_counterexample :
    isThrown (directGenerate (fun _ => FetchOutcome.httpError 429 "Too Many Requests" none)
      (fun _ => [⟨"A"⟩, ⟨"B"⟩]) [] 0 none "npc" "standard" true).1 = true := by decide

/-- C3 (amended): when every profile of a configured tier chain
answers 429, `directGenerate` throws (rather than returns) a single
chain-exhaustion error whose message carries the full ordered list of
attempted profile names together with the message of the actual last
underlying error: the split `chain = front ++ [p]` names the last
profile, the attempt of `p` from the loop's reached state `spre`
produces exactly the rate-limited error `e` and limiter state `slast`
that the call ends in, and the thrown error's "Last error" slot is
`e`'s message (`lastErrorMessage (some e)`); the `triedProfiles` log
lists every profile of the chain in chain order, and the raw
per-profile 429 errors themselves are not surfaced. -/
theorem claim_C3_exhaustion_error_annotated (env : FetchEnv)
    (tierChains : String → List Profile) (s : RLState) (now : Nat)
    (npcId tier : String) (htier : tier ∈ TIERS) (hne : tierChains tier ≠ [])
    (hall : ∀ p ∈ tierChains tier, is429 (env p.name) = true) :
    ∃ (front : List Profile) (p : Profile) (spre slast : RLState) (e : JsError),
      tierChains tier = front ++ [p] ∧
      singleProfileGenerate env spre now (some p) npcId tier = (Except.error e, slast) ∧
      e.isRateLimited = true ∧
      directGenerate env tierChains s now none npcId tier true =
        (Except.error (mkError (exhaustMsg npcId tier
            ((tierChains tier).map Profile.name) (lastErrorMessage (some e)))),
          slast, (tierChains tier).map Profile.name) := by
  rcases List.eq_nil_or_concat' (tierChains tier) with hnil | ⟨front, p, hsplit⟩
  · exact absurd hnil hne
  · obtain ⟨spre, e, slast, h1, h2, h3⟩ :=
      tryLoop_exhausts_last env now npcId tier front p s [] none
        (fun q hq => hall q (hsplit ▸ hq))
    refine ⟨front, p, spre, slast, e, hsplit, h1, h2, ?_⟩
    rw [directGenerate_fallback env tierChains s now npcId tier htier hne, hsplit, h3]
    simp [hsplit]

/-- Witness for C3 (amended) on the concrete two-profile chain. -/
theorem claim_C3_exhaustion_witness :
    ∃ (front : List Profile) (p : Profile) (spre slast : RLState) (e : JsError),
      ([⟨"A"⟩, ⟨"B"⟩] : List Profile) = front ++ [p] ∧
      singleProfileGenerate (fun _ => FetchOutcome.httpError 429 "Too Many Requests" none)
        spre 0 (some p) "npc" "standard" = (Except.error e, slast) ∧
      e.isRateLimited = true ∧
      directGenerate (fun _ => FetchOutcome.httpError 429 "Too Many Requests" none)
        (fun _ => [⟨"A"⟩, ⟨"B"⟩]) [] 0 none "npc" "standard" true =
        (Except.error (mkError (exhaustMsg "npc" "standard"
            (([⟨"A"⟩, ⟨"B"⟩] : List Profile).map Profile.name)
            (lastErrorMessage (some e)))),
          slast, ([⟨"A"⟩, ⟨"B"⟩] : List Profile).map Profile.name) :=
  claim_C3_exhaustion_error_annotated
    (fun _ => FetchOutcome.httpError 429 "Too Many Requests" none)
    (fun _ => [⟨"A"⟩, ⟨"B"⟩]) [] 0 "npc" "standard" (by decide) (by decide) (by decide)

/-- C4: within one `directGenerate` call over a fallback chain, only
failures carrying the `isRateLimited` marker advance the loop to the
next chain entry; a success or any other failure (auth, malformed
request, other non-2xx, network error) ends the iteration at once, the
non-rate-limit error being surfaced (wrapped if it lacks the module
prefix) with no later profile attempted; and in the concrete scenario
of a chain `[A, B, C]` with `A` currently rate-limited and `B`
available and succeeding, the call attempts `A` once, then `B`, never
re-attempting `A` and never touching `C`. -/
theorem claim_C4_only_rate_limit_advances :
    (∀ (env : FetchEnv) (now : Nat) (npcId tier : String) (p : Profile)
       (rest : List Profile) (s s1 : RLState) (tried : List String)
       (le : Option JsError) (e : JsError),
       singleProfileGenerate env s now (some p) npcId tier = (Except.error e, s1) →
       e.isRateLimited = true →
       tryLoop env now npcId tier (p :: rest) s tried le =
         tryLoop env now npcId tier rest s1 (tried ++ [p.name]) (some e)) ∧
    (∀ (env : FetchEnv) (now : Nat) (npcId tier : String) (p : Profile)
       (rest : List Profile) (s s1 : RLState) (tried : List String)
       (le : Option JsError) (e : JsError),
       singleProfileGenerate env s now (some p) npcId tier = (Except.error e, s1) →
       e.isRateLimited = false →
       tryLoop env now npcId tier (p :: rest) s tried le =
         (Except.error (wrapNetworkError npcId tier p.name e), s1, tried ++ [p.name])) ∧
    (∀ (env : FetchEnv) (now : Nat) (npcId tier : String) (p : Profile)
       (rest : List Profile) (s s1 : RLState) (tried : List String)
       (le : Option JsError) (text : String),
       singleProfileGenerate env s now (some p) npcId tier = (Except.ok text, s1) →
       tryLoop env now npcId tier (p :: rest) s tried le =
         (Except.ok text, s1, tried ++ [p.name])) ∧
    (∀ (env : FetchEnv) (tierChains : String → List Profile) (s : RLState) (now : Nat)
       (npcId tier : String) (A B C : Profile) (text : String),
       tier ∈ TIERS → tierChains tier = [A, B, C] →
       (checkRateLimit s A.name now).1.isLimited = true →
       (checkRateLimit s B.name now).1.isLimited = false →
       env B.name = FetchOutcome.ok text →
       (directGenerate env tierChains s now none npcId tier true).1 = Except.ok text ∧
       (directGenerate env tierChains s now none npcId tier true).2.2 = [A.name, B.name] ∧
       (A.name ≠ B.name →
         ((directGenerate env tierChains s now none npcId tier true).2.2).count A.name = 1)) := by
  refine ⟨tryLoop_step_rl, tryLoop_step_stop, tryLoop_step_ok, ?_⟩
  intro env tierChains s now npcId tier A B C text htier hchain hA hB henvB
  have hne : tierChains tier ≠ [] := by rw [hchain]; simp
  have hAstate := checkRateLimit_limited_state hA
  have hAerr := singleProfileGenerate_of_limited env s now A npcId tier hA
  rw [hAstate] at hAerr
  have hBok := singleProfileGenerate_of_ok env s now B npcId tier text hB henvB
  have hd : directGenerate env tierChains s now none npcId tier true =
      (Except.ok text, recordSuccess (checkRateLimit s B.name now).2 B.name,
        [A.name, B.name]) := by
    rw [directGenerate_fallback env tierChains s now npcId tier htier hne, hchain]
    rw [tryLoop_step_rl env now npcId tier A [B, C] s s [] none _ hAerr rfl]
    simp only [List.nil_append]
    rw [tryLoop_step_ok env now npcId tier B [C] s _ [A.name] _ text hBok]
    simp
  rw [hd]
  refine ⟨rfl, rfl, ?_⟩
  intro hAB
  simp [List.count_cons, List.count_nil, hAB, Ne.symm hAB]

/-- Witness for C4: `A` limited at time 5 (window ends at 10000), `B`
fresh and succeeding; chain `[A, B, C]` for tier `standard`. -/
theorem claim_C4_chain_witness :
    (directGenerate (fun n => if n = "B" then FetchOutcome.ok "resp"
        else FetchOutcome.httpError 429 "Too Many Requests" none)
      (fun _ => [⟨"A"⟩, ⟨"B"⟩, ⟨"C"⟩])
      [("A", { isLimited := true, nextAttemptTime := 10000, consecutiveErrors := 1 })]
      5 none "npc" "standard" true).1 = Except.ok "resp" ∧
    (directGenerate (fun n => if n = "B" then FetchOutcome.ok "resp"
        else FetchOutcome.httpError 429 "Too Many Requests" none)
      (fun _ => [⟨"A"⟩, ⟨"B"⟩, ⟨"C"⟩])
      [("A", { isLimited := true, nextAttemptTime := 10000, consecutiveErrors := 1 })]
      5 none "npc" "standard" true).2.2 = ["A", "B"] ∧
    ((Profile.mk "A").name ≠ (Profile.mk "B").name →
      ((directGenerate (fun n => if n = "B" then FetchOutcome.ok "resp"
          else FetchOutcome.httpError 429 "Too Many Requests" none)
        (fun _ => [⟨"A"⟩, ⟨"B"⟩, ⟨"C"⟩])
        [("A", { isLimited := true, nextAttemptTime := 10000, consecutiveErrors := 1 })]
        5 none "npc" "standard" true).2.2).count (Profile.mk "A").name = 1) :=
  claim_C4_only_rate_limit_advances.2.2.2
    (fun n => if n = "B" then FetchOutcome.ok "resp"
      else FetchOutcome.httpError 429 "Too Many Requests" none)
    (fun _ => [⟨"A"⟩, ⟨"B"⟩, ⟨"C"⟩])
    [("A", { isLimited := true, nextAttemptTime := 10000, consecutiveErrors := 1 })]
    5 "npc" "standard" ⟨"A"⟩ ⟨"B"⟩ ⟨"C"⟩ "resp"
    (by decide) rfl (by decide) (by decide) (by decide)

/-! ## Claims C1, C2, C9, C10: the orchestrator -/

theorem resolveNPC_npc (env : ExecEnv) (chars : Characters) (n : String) :
    (resolveNPC env chars n).npc = n := by
  unfold resolveNPC
  cases findCharacterByName chars n with
  | none => rfl
  | some cid =>
      unfold executeNPCRequest
      cases env n <;> rfl

theorem processFrom_fulfilled (npcs : List String) (g : String → Outcome) :
    ∀ (l : List String) (i : Nat),
      processFrom npcs i (l.map (fun x => Settled.fulfilled (g x))) = l.map g := by
  intro l
  induction l with
  | nil => intro i; rfl
  | cons x rest ih =>
      intro i
      simp only [List.map_cons, processFrom, processOne]
      rw [ih]

theorem spawn_batch (env : ExecEnv) (chars : Characters) (st : OrchSt)
    (npcs : List String) (situation : String)
    (hnpcs : ¬ npcs.length = 0) (hsit : ¬ situation = "") :
    ((spawnNPCResponses env chars st npcs (some situation)).2) =
      aggregateResults (npcs.map (fun npcName =>
        Settled.fulfilled (resolveNPC env chars npcName))) npcs := by
  unfold spawnNPCResponses
  cases st.current <;> simp [hnpcs, hsit]

theorem spawn_results (env : ExecEnv) (chars : Characters) (st : OrchSt)
    (npcs : List String) (situation : String)
    (hnpcs : ¬ npcs.length = 0) (hsit : ¬ situation = "") :
    ((spawnNPCResponses env chars st npcs (some situation)).2).results =
      npcs.map (resolveNPC env chars) := by
  rw [spawn_batch env chars st npcs situation hnpcs hsit]
  show processResults npcs _ = _
  unfold processResults
  exact processFrom_fulfilled npcs (resolveNPC env chars) npcs 0

/-- One target's markdown block, exactly as the accumulation loop of
`aggregateResults` appends it: heading, then response or failure
reason. -/
def sectionOf (r : Outcome) : String :=
  "### " ++ r.npc ++ "\n" ++
    (if r.success then (r.response.getD "null") ++ "\n\n"
     else "*[Generation failed: " ++ (r.error.getD "null") ++ "]*\n\n")

/-- Left-to-right concatenation of the targets' markdown blocks, in
list order. -/
def concatSections : List Outcome → String
  | [] => ""
  | r :: rest => sectionOf r ++ concatSections rest

theorem markdownFor_eq (l : List Outcome) :
    ∀ acc : String, markdownFor acc l = acc ++ concatSections l := by
  induction l with
  | nil =>
      intro acc
      simp [markdownFor, concatSections]
  | cons r rest ih =>
      intro acc
      simp only [markdownFor, concatSections]
      rw [ih]
      simp [sectionOf, String.append_assoc]

theorem visible_npc_order (env : ExecEnv) (chars : Characters) (npcs : List String) :
    ((npcs.map (resolveNPC env chars)).filter (fun r => !(isAborted r))).map Outcome.npc =
      npcs.filter (fun nm => !(isAborted (resolveNPC env chars nm))) := by
  rw [List.filter_map, List.map_map]
  have h : ∀ nm ∈ npcs.filter ((fun r => !(isAborted r)) ∘ resolveNPC env chars),
      (Outcome.npc ∘ resolveNPC env chars) nm = id nm := by
    intro nm _
    simp [Function.comp, resolveNPC_npc]
  rw [List.map_congr_left h, List.map_id]
  rfl

theorem aggregateResults_markdown (results : List Settled) (npcs : List String) :
    (aggregateResults results npcs).markdown =
      jsTrim (markdownFor "## NPC Responses

"
        ((processResults npcs results).filter (fun r => !(isAborted r)))) := rfl

/-- C1: for every non-empty target list and non-empty situation,
`spawnNPCResponses` produces exactly one outcome per input target â
never zero, never more (the per-target pipeline oracle is universally
quantified, covering fallback-chain exhaustion, arbitrary thrown
errors and `AbortError` cancellation, all of which
`executeNPCRequest`'s catch converts into a failure outcome rather
than an escaping exception) â the `results` array pairs index `i` with
input name `i` (input order), every outcome's `npc` is one of the
input names, and the markdown summary is the header followed by the
left-to-right concatenation of the per-target sections of the
non-aborted outcomes taken in input order: its section list, projected
to names, is exactly the input list filtered, in original input
order. -/
theorem claim_C1_spawn_one_outcome_per_target (env : ExecEnv) (chars : Characters)
    (st : OrchSt) (npcs : List String) (situation : String)
    (hnpcs : npcs ≠ []) (hsit : situation ≠ "") :
    ((spawnNPCResponses env chars st npcs (some situation)).2).results.length =
      npcs.length ∧
    (∀ i : Nat,
      (((spawnNPCResponses env chars st npcs (some situation)).2).results.get? i).map
        Outcome.npc = npcs.get? i) ∧
    (∀ o ∈ ((spawnNPCResponses env chars st npcs (some situation)).2).results,
      o.npc ∈ npcs) ∧
    ((spawnNPCResponses env chars st npcs (some situation)).2).markdown =
      jsTrim ("## NPC Responses

" ++
        concatSections
          ((npcs.map (resolveNPC env chars)).filter (fun r => !(isAborted r)))) ∧
    ((npcs.map (resolveNPC env chars)).filter (fun r => !(isAborted r))).map
        Outcome.npc =
      npcs.filter (fun nm => !(isAborted (resolveNPC env chars nm))) := by
  have hlen : ¬ npcs.length = 0 := fun h => hnpcs (List.length_eq_zero.mp h)
  have hproc : processResults npcs (npcs.map (fun npcName =>
      Settled.fulfilled (resolveNPC env chars npcName))) =
      npcs.map (resolveNPC env chars) :=
    processFrom_fulfilled npcs (resolveNPC env chars) npcs 0
  refine ⟨?_, ?_, ?_, ?_, visible_npc_order env chars npcs⟩
  · rw [spawn_results env chars st npcs situation hlen hsit]
    simp
  · intro i
    rw [spawn_results env chars st npcs situation hlen hsit]
    rw [List.get?_map]
    cases h : npcs.get? i with
    | none => simp
    | some name => simp [resolveNPC_npc]
  · intro o ho
    rw [spawn_results env chars st npcs situation hlen hsit] at ho
    obtain ⟨name, hname, ho'⟩ := List.mem_map.mp ho
    rw [← ho', resolveNPC_npc]
    exact hname
  · rw [spawn_batch env chars st npcs situation hlen hsit,
      aggregateResults_markdown, hproc, markdownFor_eq]

/-- Witness for C1 at a concrete two-target batch (one resolvable
target, one unknown). -/
theorem claim_C1_spawn_witness :
    ((spawnNPCResponses (fun _ => ExecBehavior.ok "hi" 7 "minor") [some "Alice"]
      OrchSt.init ["Alice", "Ghost"] (some "door")).2).results.length = 2 ∧
    (((spawnNPCResponses (fun _ => ExecBehavior.ok "hi" 7 "minor") [some "Alice"]
      OrchSt.init ["Alice", "Ghost"] (some "door")).2).results.get? 1).map
        Outcome.npc = some "Ghost" := by
  have h := claim_C1_spawn_one_outcome_per_target
    (fun _ => ExecBehavior.ok "hi" 7 "minor") [some "Alice"] OrchSt.init
    ["Alice", "Ghost"] "door" (by decide) (by decide)
  exact ⟨h.1, h.2.1 1⟩

/-- The non-cancelled partition of `aggregateResults`: the processed
outcomes with the aborted ones (`success=false, error='Aborted'`)
removed. -/
def visibleOutcomes (results : List Settled) (npcs : List String) : List Outcome :=
  (processResults npcs results).filter (fun r => !(isAborted r))

/-- The spec's target-ordered narrative summary over a given list of
visible (non-cancelled) outcomes: header, then each target's heading
with its response or failure reason, trimmed.  Defined over the
visible list only, so a summary equal to it cannot depend on cancelled
outcomes. -/
def summaryOfVisible (visible : List Outcome) : String :=
  jsTrim (markdownFor "## NPC Responses\n\n" visible)

theorem foldl_latency (l : List Outcome) :
    ∀ a : Nat, l.foldl (fun acc r => acc + r.latency) a =
      a + (l.map Outcome.latency).sum := by
  induction l with
  | nil => intro a; simp
  | cons r rest ih =>
      intro a
      simp only [List.foldl_cons, List.map_cons, List.sum_cons]
      rw [ih]
      omega

theorem roundDiv_bounds (S N : Nat) (h : 0 < N) :
    2 * N * roundDiv S N ≤ 2 * S + N ∧ 2 * S + N < 2 * N * (roundDiv S N + 1) := by
  unfold roundDiv
  have h2N : 0 < 2 * N := by omega
  have hdm := Nat.div_add_mod (2 * S + N) (2 * N)
  have hmlt := Nat.mod_lt (2 * S + N) h2N
  constructor
  · omega
  · rw [Nat.mul_add, Nat.mul_one]
    omega

/-- C2: aggregation excludes cancelled/aborted outcomes entirely: the
full processed list is kept in `results`, but `stats.total`,
`stats.success`, `stats.failed` count only the non-cancelled outcomes,
`stats.avgLatency` is the half-up-rounded integer mean latency over
the non-cancelled outcomes (0 when none remain), and the markdown
summary equals the target-ordered rendering of the non-cancelled
outcomes alone — a cancelled target cannot appear in or affect it. -/
theorem claim_C2_aggregate_excludes_cancelled (results : List Settled)
    (npcs : List String) :
    (aggregateResults results npcs).results = processResults npcs results ∧
    (aggregateResults results npcs).stats.total =
      (visibleOutcomes results npcs).length ∧
    (aggregateResults results npcs).stats.success =
      ((visibleOutcomes results npcs).filter (fun r => r.success)).length ∧
    (aggregateResults results npcs).stats.failed =
      ((visibleOutcomes results npcs).filter (fun r => !r.success)).length ∧
    ((visibleOutcomes results npcs).length = 0 →
      (aggregateResults results npcs).stats.avgLatency = 0) ∧
    (0 < (visibleOutcomes results npcs).length →
      2 * (visibleOutcomes results npcs).length *
          (aggregateResults results npcs).stats.avgLatency ≤
        2 * ((visibleOutcomes results npcs).map Outcome.latency).sum +
          (visibleOutcomes results npcs).length ∧
      2 * ((visibleOutcomes results npcs).map Outcome.latency).sum +
          (visibleOutcomes results npcs).length <
        2 * (visibleOutcomes results npcs).length *
          ((aggregateResults results npcs).stats.avgLatency + 1)) ∧
    (aggregateResults results npcs).markdown =
      summaryOfVisible (visibleOutcomes results npcs) := by
  have havg : (aggregateResults results npcs).stats.avgLatency =
      if 0 < (visibleOutcomes results npcs).length then
        roundDiv (((visibleOutcomes results npcs).map Outcome.latency).sum)
          (visibleOutcomes results npcs).length
      else 0 := by
    show (if 0 < ((processResults npcs results).filter _).length then
        roundDiv (((processResults npcs results).filter _).foldl
          (fun acc r => acc + r.latency) 0) _ else 0) = _
    rw [foldl_latency]
    simp [visibleOutcomes]
  refine ⟨rfl, rfl, rfl, rfl, ?_, ?_, rfl⟩
  · intro h0
    rw [havg]
    simp [h0]
  · intro hpos
    rw [havg, if_pos hpos]
    exact roundDiv_bounds _ _ hpos

/-- Witness for C2: one successful outcome plus one aborted outcome;
the aborted one is excluded from the visible partition and the rounded
mean is taken over the single visible latency. -/
theorem claim_C2_aggregate_witness :
    2 * (visibleOutcomes
        [Settled.fulfilled ⟨"Alice", true, some "hi", none, 7, some "minor"⟩,
         Settled.fulfilled ⟨"Bob", false, none, some "Aborted", 3, none⟩]
        ["Alice", "Bob"]).length *
      (aggregateResults
        [Settled.fulfilled ⟨"Alice", true, some "hi", none, 7, some "minor"⟩,
         Settled.fulfilled ⟨"Bob", false, none, some "Aborted", 3, none⟩]
        ["Alice", "Bob"]).stats.avgLatency ≤
    2 * ((visibleOutcomes
        [Settled.fulfilled ⟨"Alice", true, some "hi", none, 7, some "minor"⟩,
         Settled.fulfilled ⟨"Bob", false, none, some "Aborted", 3, none⟩]
        ["Alice", "Bob"]).map Outcome.latency).sum +
      (visibleOutcomes
        [Settled.fulfilled ⟨"Alice", true, some "hi", none, 7, some "minor"⟩,
         Settled.fulfilled ⟨"Bob", false, none, some "Aborted", 3, none⟩]
        ["Alice", "Bob"]).length :=
  ((claim_C2_aggregate_excludes_cancelled
    [Settled.fulfilled ⟨"Alice", true, some "hi", none, 7, some "minor"⟩,
     Settled.fulfilled ⟨"Bob", false, none, some "Aborted", 3, none⟩]
    ["Alice", "Bob"]).2.2.2.2.2.1 (by decide)).1

/-- C9 (evidence of the divergence): `spawnNPCResponses` never clears
the module-level controller when a batch completes, so after a spawn
call has fully returned its `BatchResult` (no batch in flight),
`abortCurrentSpawn` still finds the stale controller and reports
`true` — while its own contract says it returns `false` when no spawn
is active. -/
theorem claim_C9_abort_after_complete_returns_true :
    (abortCurrentSpawn
      (spawnNPCResponses (fun _ => ExecBehavior.ok "hi" 7 "minor") [some "Alice"]
        OrchSt.init ["Alice"] (some "door")).1).1 = true := by decide

/-- C10: every `spawnNPCResponses` call aborts the previous batch's
controller before validating its inputs: for any prior state whose
current controller is `i`, the post-state has controller `i` aborted —
with no condition on the arguments — and the calls that fail
validation (empty target list; missing or empty situation) still
return only the early "nothing to do" `BatchResult`. -/
theorem claim_C10_spawn_aborts_previous_unconditionally (env : ExecEnv)
    (chars : Characters) (st : OrchSt) (npcs : List String)
    (situation : Option String) (i : Nat)
    (hcur : st.current = some i) (hlt : i < st.controllers.length) :
    (spawnNPCResponses env chars st npcs situation).1.controllers.get? i = some true ∧
    (npcs = [] → (spawnNPCResponses env chars st npcs situation).2 =
      emptyBatch "*No NPCs specified for response generation.*") ∧
    (npcs ≠ [] → situation = none → (spawnNPCResponses env chars st npcs situation).2 =
      emptyBatch "*No situation provided for NPC responses.*") ∧
    (npcs ≠ [] → situation = some "" → (spawnNPCResponses env chars st npcs situation).2 =
      emptyBatch "*No situation provided for NPC responses.*") := by
  have hst : (spawnNPCResponses env chars st npcs situation).1.controllers =
      st.controllers.set i true ++ [false] := by
    unfold spawnNPCResponses
    rw [hcur]
    by_cases h0 : npcs.length = 0
    · simp [h0]
    · cases situation with
      | none => simp [h0]
      | some sit => by_cases hs : sit = "" <;> simp [h0, hs]
  refine ⟨?_, ?_, ?_, ?_⟩
  · rw [hst]
    rw [List.get?_append (by simp [hlt])]
    exact List.get?_set_eq_of_lt true hlt
  · intro h0
    subst h0
    unfold spawnNPCResponses
    rw [hcur]
    simp
  · intro hne h0
    subst h0
    have h0' : ¬ npcs.length = 0 := fun h => hne (List.length_eq_zero.mp h)
    unfold spawnNPCResponses
    rw [hcur]
    simp [h0']
  · intro hne h0
    subst h0
    have h0' : ¬ npcs.length = 0 := fun h => hne (List.length_eq_zero.mp h)
    unfold spawnNPCResponses
    rw [hcur]
    simp [h0']

/-- Witness for C10: a previous batch's controller (index 0, not yet
aborted) is aborted by a new call that carries an empty target list. -/
theorem claim_C10_spawn_aborts_witness :
    (spawnNPCResponses (fun _ => ExecBehavior.ok "hi" 7 "minor") []
      { controllers := [false], current := some 0 } [] none).1.controllers.get? 0 =
      some true ∧
    (spawnNPCResponses (fun _ => ExecBehavior.ok "hi" 7 "minor") []
      { controllers := [false], current := some 0 } [] none).2 =
      emptyBatch "*No NPCs specified for response generation.*" := by
  have h := claim_C10_spawn_aborts_previous_unconditionally
    (fun _ => ExecBehavior.ok "hi" 7 "minor") []
    { controllers := [false], current := some 0 } [] none 0 rfl (by decide)
  exact ⟨h.1, h.2.1 rfl⟩
